import Mathlib

/-!
Verification of the lager plugin orchestration engine.

The repository contains two implementations of the engine:
* `src/src/lib/lager.js` — a prototype-based `Lager` with `registerPlugin`,
  `getPlugin` and the recursive hook dispatcher `fire`/`callPluginsSequencialy`;
* `src/unnamed/part_002` — a Pebo-based `Lager` class with `registerPlugin`,
  `isPluginRegistered`, `getPlugin`, `call`, `init` and `getConfig`.

We embed both.  JavaScript values are modelled by `JsValue`; JS objects are
association lists preserving insertion order; a thrown exception / rejected
future is modelled by `Except.error`; a resolved future of `v` by
`JsValue.promise v`.
-/

namespace Lager

/-! ## Definitions -/

/-- Model of a JavaScript runtime value.  `promise v` is a resolved future
of `v`; `obj` is a plain object whose own enumerable properties are listed
in insertion order. -/
inductive JsValue where
  | undefined
  | null
  | bool (b : Bool)
  | num (n : Int)
  | str (s : String)
  | promise (v : JsValue)
  | obj (fields : List (String × JsValue))

/-- JS property lookup in an association list of own properties. -/
def lookupEntry {κ β : Type} [DecidableEq κ] : List (κ × β) → κ → Option β
  | [], _ => none
  | (k, v) :: rest, key => if k = key then some v else lookupEntry rest key

/-- JS property assignment `o[k] = v`: updates the entry in place when the
key already exists (keeping its position), appends it otherwise. -/
def setEntry {κ β : Type} [DecidableEq κ] : List (κ × β) → κ → β → List (κ × β)
  | [], key, v => [(key, v)]
  | (k, w) :: rest, key, v =>
    if k = key then (key, v) :: rest else (k, w) :: setEntry rest key v

/-- `v === undefined`. -/
def isUndefined : JsValue → Bool
  | JsValue.undefined => true
  | _ => false

/-- Whether a value is a (resolved) future. -/
def isPromise : JsValue → Bool
  | JsValue.promise _ => true
  | _ => false

/-- JS truthiness (`!v` is `!truthy v`).  `NaN` is not modelled; numbers
are integers. -/
def truthy : JsValue → Bool
  | JsValue.undefined => false
  | JsValue.null => false
  | JsValue.bool b => b
  | JsValue.num n => n ≠ 0
  | JsValue.str s => s ≠ ""
  | JsValue.promise _ => true
  | JsValue.obj _ => true

/-- JS property access `v[k]`.  Access on `null`/`undefined` throws a
`TypeError`; access on other primitives yields `undefined` (built-in
properties of primitives, such as `"s".length`, are elided). -/
def jsGet : JsValue → String → Except JsValue JsValue
  | JsValue.undefined, _ => Except.error (JsValue.str "TypeError")
  | JsValue.null, _ => Except.error (JsValue.str "TypeError")
  | JsValue.obj fields, k => Except.ok ((lookupEntry fields k).getD JsValue.undefined)
  | _, _ => Except.ok JsValue.undefined

/-- Helper for `splitOnDot`, over the character list. -/
def splitOnDotAux : List Char → List String
  | [] => [""]
  | c :: cs =>
    match splitOnDotAux cs with
    | [] => [String.singleton c]
    | s :: ss =>
      if c = '.' then "" :: s :: ss else (String.singleton c ++ s) :: ss

/-- JS `key.split('.')` for the single-character separator `'.'`. -/
def splitOnDot (s : String) : List String :=
  splitOnDotAux s.data

/-- The `while` loop of `getConfig` (src/unnamed/part_002): walks the
remaining key segments, returning `undefined` as soon as the current part
is `undefined`, otherwise performing the property access `part[seg]`. -/
def walkConfig : JsValue → List String → Except JsValue JsValue
  | part, [] => Except.ok part
  | part, seg :: rest =>
    if isUndefined part then Except.ok JsValue.undefined
    else (jsGet part seg).bind fun next => walkConfig next rest

/-- `Lager.getConfig(key)` from src/unnamed/part_002.  The config store is
the own-property list of `this.config`; `none` models calling with `key`
undefined. -/
def getConfig (config : List (String × JsValue)) : Option String → Except JsValue JsValue
  | none => Except.ok (JsValue.obj config)
  | some key =>
    match splitOnDot key with
    | [] => Except.ok JsValue.undefined
    | first :: rest =>
      (jsGet (JsValue.obj config) first).bind fun part => walkConfig part rest

mutual

/-- A value containing no `null` anywhere (JSON configs without `null`). -/
def nullFree : JsValue → Bool
  | JsValue.null => false
  | JsValue.promise v => nullFree v
  | JsValue.obj fields => nullFreeList fields
  | _ => true

/-- All values of an own-property list are `nullFree`. -/
def nullFreeList : List (String × JsValue) → Bool
  | [] => true
  | (_, v) :: rest => nullFree v && nullFreeList rest

end

/-- ASCII alphanumeric character (digit, upper or lower letter). -/
def isWordChar (c : Char) : Bool :=
  (48 ≤ c.toNat && c.toNat ≤ 57) || (65 ≤ c.toNat && c.toNat ≤ 90) ||
    (97 ≤ c.toNat && c.toNat ≤ 122)

/-- ASCII lower-case letter. -/
def isLowerCh (c : Char) : Bool := 97 ≤ c.toNat && c.toNat ≤ 122

/-- ASCII upper-case letter. -/
def isUpperCh (c : Char) : Bool := 65 ≤ c.toNat && c.toNat ≤ 90

/-- ASCII digit. -/
def isDigitCh (c : Char) : Bool := 48 ≤ c.toNat && c.toNat ≤ 57

/-- ASCII lower-casing of a character. -/
def lowerChar (c : Char) : Char :=
  if 65 ≤ c.toNat && c.toNat ≤ 90 then Char.ofNat (c.toNat + 32) else c

/-- ASCII upper-casing of a character. -/
def upperChar (c : Char) : Char :=
  if 97 ≤ c.toNat && c.toNat ≤ 122 then Char.ofNat (c.toNat - 32) else c

/-- A word break inside a run of word characters: lower→upper transition or
a letter/digit boundary. -/
def wordBoundary (prev c : Char) : Bool :=
  (isLowerCh prev && isUpperCh c) || (isDigitCh prev && !isDigitCh c) ||
    (!isDigitCh prev && isDigitCh c)

/-- Splits characters into words: runs of word characters, further split at
`wordBoundary` transitions.  `cur` holds the current word reversed. -/
def wordsAux : Option (List Char) → List Char → List (List Char)
  | none, [] => []
  | some w, [] => [w.reverse]
  | cur, c :: cs =>
    if isWordChar c then
      match cur with
      | none => wordsAux (some [c]) cs
      | some [] => wordsAux (some [c]) cs
      | some (d :: ds) =>
        if wordBoundary d c then (d :: ds).reverse :: wordsAux (some [c]) cs
        else wordsAux (some (c :: d :: ds)) cs
    else
      match cur with
      | none => wordsAux none cs
      | some w => w.reverse :: wordsAux none cs

/-- Capitalization of a word: first character upper-cased, rest lower-cased. -/
def capitalizeWord : List Char → List Char
  | [] => []
  | c :: cs => upperChar c :: cs.map lowerChar

/-- Modelled from the spec: lodash `_.camelCase` (an external dependency of
`registerPlugin`), ASCII approximation — the input is split into words at
non-alphanumeric characters, lower→upper transitions and letter/digit
boundaries; the first word is lower-cased, the following ones capitalized.
(The lodash all-caps acronym rule and unicode handling are not modelled;
plugin names in this project are plain ASCII identifiers.) -/
def camelCase (s : String) : String :=
  match wordsAux none s.data with
  | [] => ""
  | w :: ws => String.mk (w.map lowerChar ++ (ws.map capitalizeWord).flatten)

/-- Modelled from the spec: lodash `toString`, used by `_.camelCase` on its
argument — `undefined` and `null` become the empty string (non-primitive
cases approximated; plugin names are strings in practice). -/
def lodashToString : JsValue → String
  | JsValue.undefined => ""
  | JsValue.null => ""
  | JsValue.str s => s
  | JsValue.num n => toString n
  | JsValue.bool b => cond b "true" "false"
  | JsValue.promise _ => ""
  | JsValue.obj _ => ""

/-- JS string conversion as performed by the `+` concatenation operator:
`undefined` becomes `"undefined"`. -/
def jsStringOf : JsValue → String
  | JsValue.undefined => "undefined"
  | JsValue.null => "null"
  | JsValue.str s => s
  | JsValue.num n => toString n
  | JsValue.bool b => cond b "true" "false"
  | JsValue.promise _ => "[object Promise]"
  | JsValue.obj _ => "[object Object]"

/-- The own properties contributed by a JS string when used as an
`_.assign` source: its characters under their index keys. -/
def stringFields (s : String) : List (String × JsValue) :=
  s.data.enum.map fun p => (toString p.1, JsValue.str (String.singleton p.2))

/-- Copies the source properties onto the target property list, in order:
existing keys are overridden in place, new keys appended. -/
def assignFields (target : List (String × JsValue)) :
    List (String × JsValue) → List (String × JsValue)
  | [] => target
  | (k, v) :: rest => assignFields (setEntry target k v) rest

/-- The own enumerable properties of an `_.assign` source value:
`null`/`undefined` and non-string primitives contribute none, strings their
indexed characters, objects their property list. -/
def sourceFields : JsValue → List (String × JsValue)
  | JsValue.obj fields => fields
  | JsValue.str s => stringFields s
  | _ => []

/-- Modelled from the spec: lodash `_.assign(target, source)` (an external
dependency of `registerPlugin`) — a shallow merge copying the source's own
properties over the target's, the source winning on conflicts; a
non-object target is coerced to an object first. -/
def assign (target source : JsValue) : JsValue :=
  let targetFields := match target with
    | JsValue.obj fields => fields
    | _ => []
  JsValue.obj (assignFields targetFields (sourceFields source))

/-- A JS callable registered as an extension (or hook handler forwarded to
Pebo): it receives the argument list and returns a value — possibly a
future. -/
def ExtFn : Type := List JsValue → JsValue

/-- A plugin descriptor as consumed by src/unnamed/part_002: `name` is an
arbitrary JS value (`undefined` when absent), `hooks` and `extensions` are
own-property lists of callables, `config` an arbitrary value (`undefined`
when absent). -/
structure PluginP where
  name : JsValue
  hooks : List (String × ExtFn)
  extensions : List (String × ExtFn)
  config : JsValue

/-- The state of the part_002 `Lager` instance: the config store
(`this.config` as an own-property list), the ordered plugin registry, the
extension map, and the Pebo event listeners registered through
`this.when(event, fn)` (Pebo itself is an external dependency; we record
the listener registrations it receives). -/
structure LagerState where
  config : List (String × JsValue)
  plugins : List PluginP
  extensions : List (String × ExtFn)
  events : List (String × ExtFn)

/-- `Lager.registerPlugin(plugin)` from src/unnamed/part_002 (value-level
model; the in-place mutation of the descriptor is modelled separately on a
heap, see `registerPluginHP`).  Computes the camel-cased plugin name,
reads the project config subsection via `getConfig`, merges it over the
plugin's own config with `_.assign` when present, stores the result in the
config store under that key, appends the plugin, forwards its hooks to
Pebo and registers its extensions under `name + ':' + extensionName`.
There is no validity check on `name`. -/
def registerPluginP (st : LagerState) (p : PluginP) : Except JsValue LagerState :=
  let plugiConfigKey := camelCase (lodashToString p.name)
  (getConfig st.config (some plugiConfigKey)).bind fun pluginConfig =>
  let newConfig :=
    if isUndefined pluginConfig then p.config else assign p.config pluginConfig
  let p2 : PluginP := { p with config := newConfig }
  Except.ok
    { config := setEntry st.config plugiConfigKey newConfig
      plugins := st.plugins ++ [p2]
      events := st.events ++ p.hooks
      extensions :=
        p.extensions.foldl
          (fun acc kv => setEntry acc (jsStringOf p.name ++ ":" ++ kv.1) kv.2)
          st.extensions }

/-- `plugin.name === name` where `name` is the string argument of a
lookup. -/
def nameMatches (v : JsValue) (name : String) : Bool :=
  match v with
  | JsValue.str s => s = name
  | _ => false

/-- The engine state of the C6 witness: the project config provides
`{timeout: 60}` under the camel-cased key `"myPlugin"`. -/
def projectState : LagerState :=
  { config := [("myPlugin", JsValue.obj [("timeout", JsValue.num 60)])]
    plugins := [], extensions := [], events := [] }

/-- The plugin of the C6 witness: named `"my-plugin"` with default config
`{timeout: 30}`. -/
def timeoutPlugin : PluginP :=
  { name := JsValue.str "my-plugin", hooks := [], extensions := []
    config := JsValue.obj [("timeout", JsValue.num 30)] }

/-- The engine state after registering `timeoutPlugin` on `projectState`. -/
def registeredState : LagerState :=
  { config := [("myPlugin", JsValue.obj [("timeout", JsValue.num 60)])]
    plugins := [{ timeoutPlugin with config := JsValue.obj [("timeout", JsValue.num 60)] }]
    extensions := [], events := [] }

/-- `Lager.isPluginRegistered(name)` from src/unnamed/part_002. -/
def isPluginRegistered (plugins : List PluginP) (name : String) : Bool :=
  (plugins.findIdx? fun p => nameMatches p.name name).isSome

/-- `Lager.getPlugin(name)` from src/unnamed/part_002: first matching
descriptor, or a thrown `PluginNotFound`-style `Error` when none match. -/
def getPluginP (plugins : List PluginP) (name : String) : Except JsValue PluginP :=
  match plugins.find? (fun p => nameMatches p.name name) with
  | some p => Except.ok p
  | none =>
    Except.error (JsValue.str
      ("The plugin \"" ++ name ++ "\" is not registered in the Lager instance"))

/-- A descriptor with no `name` property (its value is `undefined`). -/
def namelessPlugin : PluginP :=
  { name := JsValue.undefined, hooks := [], extensions := []
    config := JsValue.undefined }

/-- A fresh part_002 engine state: empty config store and registries. -/
def emptyState : LagerState :=
  { config := [], plugins := [], extensions := [], events := [] }

/-- Two part_002 descriptors sharing the name `"dup"`, distinguishable by
their configs. -/
def dupPlugin1 : PluginP :=
  { name := JsValue.str "dup", hooks := [], extensions := []
    config := JsValue.num 1 }

/-- The later-registered namesake of `dupPlugin1`. -/
def dupPlugin2 : PluginP :=
  { name := JsValue.str "dup", hooks := [], extensions := []
    config := JsValue.num 2 }

/-- `Lager.call(name, ...args)` from src/unnamed/part_002: invokes the
extension registered under the exact key and returns its result as-is;
when no extension is registered, returns a resolved future of the last
argument (`undefined` when there are no arguments). -/
def call (extensions : List (String × ExtFn)) (name : String) (args : List JsValue) :
    JsValue :=
  match lookupEntry extensions name with
  | some f => f args
  | none => JsValue.promise ((args.getLast?).getD JsValue.undefined)

/-- The `"P:double"` extension of the spec's example: doubles its single
numeric argument, returning the result as a plain (non-future) value. -/
def doubleExtension : ExtFn := fun args =>
  match (args.head?).getD JsValue.undefined with
  | JsValue.num n => JsValue.num (2 * n)
  | v => v

/-- A hook handler: receives the argument tuple and returns a future of a
new tuple (`Except.error` models a rejected future, propagated by
bluebird's `.spread` chain). -/
def HookFn : Type := List JsValue → Except JsValue (List JsValue)

/-- A plugin descriptor as consumed by src/src/lib/lager.js: `name` is an
arbitrary JS value, `hooks` is the (possibly absent) own-property list of
hook handlers. -/
structure PluginL where
  name : JsValue
  hooks : Option (List (String × HookFn))

/-- The condition `this.plugins[i].hooks && this.plugins[i].hooks[eventName]`
of `fire`: the plugin's handler for the event, when the plugin has a hooks
object containing one. -/
def hookFor (p : PluginL) (eventName : String) : Option HookFn :=
  match p.hooks with
  | none => none
  | some hookList => lookupEntry hookList eventName

/-- `callPluginsSequencialy(i, args)` from `Lager.prototype.fire`
(src/src/lib/lager.js): when `this.plugins[i]` is absent, resolves with
`args`; when plugin `i` implements the hook, invokes its handler on `args`
and recurses at `i + 1` on the tuple the handler's future resolves to
(a rejection propagates out through the `.spread` chain); otherwise
recurses at `i + 1` with `args` unchanged. -/
def callPluginsSequencialy (plugins : List PluginL) (eventName : String)
    (i : Nat) (args : List JsValue) : Except JsValue (List JsValue) :=
  match h : plugins[i]? with
  | none => Except.ok args
  | some p =>
    match hookFor p eventName with
    | some handler =>
      (handler args).bind fun args2 =>
        callPluginsSequencialy plugins eventName (i + 1) args2
    | none => callPluginsSequencialy plugins eventName (i + 1) args
termination_by plugins.length - i
decreasing_by
  all_goals
    have hlt : i < plugins.length := by
      by_contra hge
      rw [List.getElem?_eq_none (Nat.le_of_not_lt hge)] at h
      exact Option.noConfusion h
    omega

/-- `Lager.prototype.fire(eventName, ...args)` from src/src/lib/lager.js:
starts the recursive sequential dispatch at plugin index 0. -/
def fire (plugins : List PluginL) (eventName : String) (args : List JsValue) :
    Except JsValue (List JsValue) :=
  callPluginsSequencialy plugins eventName 0 args

/-- One step of the dispatch pipeline: apply the plugin's handler for the
event when it has one, keep the tuple unchanged otherwise. -/
def fireStep (eventName : String) (args : List JsValue) (p : PluginL) :
    Except JsValue (List JsValue) :=
  match hookFor p eventName with
  | some handler => handler args
  | none => Except.ok args

/-- Modelled from the spec: the «asynchronous, strictly sequential left
fold over the registry» that §4.2 describes — each plugin's step consumes
the tuple produced by the previous step, in registration order, and a
rejection aborts the fold. -/
def fireFold (eventName : String) : List PluginL → List JsValue →
    Except JsValue (List JsValue)
  | [], args => Except.ok args
  | p :: rest, args =>
    (fireStep eventName args p).bind fun args2 => fireFold eventName rest args2

/-- A hook handler appending `suffix` to the first string argument. -/
def hookAppend (suffix : String) : HookFn := fun args =>
  match args with
  | JsValue.str s :: rest => Except.ok (JsValue.str (s ++ suffix) :: rest)
  | _ => Except.ok args

/-- Plugin A of the order-sensitivity example: appends `"-A"`. -/
def pluginA : PluginL :=
  { name := JsValue.str "A", hooks := some [("beforeDeploy", hookAppend "-A")] }

/-- Plugin B of the order-sensitivity example: appends `"-B"`. -/
def pluginB : PluginL :=
  { name := JsValue.str "B", hooks := some [("beforeDeploy", hookAppend "-B")] }

/-- A hook handler whose future rejects with the error `"boom"`. -/
def failingHook : HookFn := fun _ => Except.error (JsValue.str "boom")

/-- A plugin whose `beforeDeploy` handler rejects. -/
def pluginFail : PluginL :=
  { name := JsValue.str "F", hooks := some [("beforeDeploy", failingHook)] }

/-- Plugin C: appends `"-C"` to the first string argument. -/
def pluginC : PluginL :=
  { name := JsValue.str "C", hooks := some [("beforeDeploy", hookAppend "-C")] }

/-- `Lager.prototype.registerPlugin(plugin)` from src/src/lib/lager.js
(value-level model; the `getPath` injection mutates the descriptor and is
modelled on the heap, see `registerPluginHL`): throws when `plugin.name`
is falsy, otherwise appends the plugin to `this.plugins` and returns the
instance — modelled as returning the updated registry. -/
def registerPluginL (plugins : List PluginL) (p : PluginL) :
    Except JsValue (List PluginL) :=
  if truthy p.name then Except.ok (plugins ++ [p])
  else Except.error (JsValue.str "A lager plugin MUST have a name property")

/-- `Lager.prototype.getPlugin(name)` from src/src/lib/lager.js: `_.find`
over the registry — the first matching descriptor, or `undefined` (none)
when no descriptor matches; no error is thrown. -/
def getPluginL (plugins : List PluginL) (name : String) : Option PluginL :=
  plugins.find? fun p => nameMatches p.name name

/-- A heap value for the aliasing model of `registerPlugin`: primitives,
references to heap objects, and the two engine-owned members injected
into descriptors (`fnGetPath` is the `getPath` closure of
src/src/lib/lager.js, `lagerRef` the engine back-reference `this` of
src/unnamed/part_002). -/
inductive HVal where
  | undefined
  | null
  | bool (b : Bool)
  | num (n : Int)
  | str (s : String)
  | ref (addr : Nat)
  | fnGetPath
  | lagerRef
  deriving DecidableEq

/-- A heap: addresses mapped to objects (own-property lists). -/
abbrev Heap : Type := List (Nat × List (String × HVal))

/-- The heap write `heap[a].f = v` (mutating one field of one object). -/
def heapSetField (heap : Heap) (a : Nat) (f : String) (v : HVal) : Heap :=
  setEntry heap a (setEntry ((lookupEntry heap a).getD []) f v)

/-- The heap read `heap[a].f` (`undefined` when absent). -/
def objField (heap : Heap) (a : Nat) (f : String) : HVal :=
  (lookupEntry ((lookupEntry heap a).getD []) f).getD HVal.undefined

/-- JS truthiness on heap values. -/
def truthyH : HVal → Bool
  | HVal.undefined => false
  | HVal.null => false
  | HVal.bool b => b
  | HVal.num n => n ≠ 0
  | HVal.str s => s ≠ ""
  | _ => true

/-- lodash `toString` on heap values (as `lodashToString`). -/
def lodashToStringH : HVal → String
  | HVal.str s => s
  | HVal.num n => toString n
  | HVal.bool b => cond b "true" "false"
  | _ => ""

/-- JS property access `v[k]` on heap values, dereferencing through the
heap; `null`/`undefined` throw, other primitives yield `undefined`. -/
def hJsGet (heap : Heap) : HVal → String → Except HVal HVal
  | HVal.undefined, _ => Except.error (HVal.str "TypeError")
  | HVal.null, _ => Except.error (HVal.str "TypeError")
  | HVal.ref a, k =>
    Except.ok ((lookupEntry ((lookupEntry heap a).getD []) k).getD HVal.undefined)
  | _, _ => Except.ok HVal.undefined

/-- The `while` loop of `getConfig`, on heap values. -/
def hWalk (heap : Heap) : HVal → List String → Except HVal HVal
  | part, [] => Except.ok part
  | part, seg :: rest =>
    if part = HVal.undefined then Except.ok HVal.undefined
    else (hJsGet heap part seg).bind fun nxt => hWalk heap nxt rest

/-- The state of the part_002 engine in the heap model: the heap, the
address of the `this.config` store object, the registry (a JS array of
references to the caller-owned descriptor objects) and the next fresh
address. -/
structure HState where
  heap : Heap
  configAddr : Nat
  plugins : List HVal
  next : Nat

/-- `Lager.getConfig(key)` of src/unnamed/part_002 in the heap model
(the store is the object at `configAddr`). -/
def hGetConfig (st : HState) (key : String) : Except HVal HVal :=
  match splitOnDot key with
  | [] => Except.ok HVal.undefined
  | first :: rest =>
    (hJsGet st.heap (HVal.ref st.configAddr) first).bind fun part =>
      hWalk st.heap part rest

/-- `_.assign` source-property copying on heap fields (as `assignFields`). -/
def assignFieldsH (target : List (String × HVal)) :
    List (String × HVal) → List (String × HVal)
  | [] => target
  | (k, v) :: rest => assignFieldsH (setEntry target k v) rest

/-- The indexed-character properties a JS string contributes as an
`_.assign` source, on heap values. -/
def stringFieldsH (s : String) : List (String × HVal) :=
  s.data.enum.map fun p => (toString p.1, HVal.str (String.singleton p.2))

/-- The own enumerable properties of an `_.assign` source heap value:
objects are dereferenced (the copy is shallow — references are copied as
references), strings contribute their indexed characters, other
primitives nothing. -/
def sourceFieldsH (heap : Heap) : HVal → List (String × HVal)
  | HVal.ref a => (lookupEntry heap a).getD []
  | HVal.str s => stringFieldsH s
  | _ => []

/-- Heap-level model of `Lager.registerPlugin(plugin)` from
src/unnamed/part_002, tracking the in-place mutation of the caller's
descriptor object at `pAddr`: the `plugin.lager = this` injection, the
`plugin.config = _.assign(plugin.config, pluginConfig)` merge mutating the
descriptor's own config object, the aliasing store
`this.config[plugiConfigKey] = plugin.config`, the registry push of the
descriptor reference, and the `plugin.hooks = plugin.hooks || []` /
`plugin.extensions = plugin.extensions || []` defaulting writes.  The
engine-side Pebo listener registrations (`this.when`) and the extension
map writes mutate the engine, not the descriptor, and are modelled in the
value-level `registerPluginP`. -/
def registerPluginHP (st : HState) (pAddr : Nat) : Except HVal HState :=
  let heap1 := heapSetField st.heap pAddr "lager" HVal.lagerRef
  let plugiConfigKey := camelCase (lodashToStringH (objField heap1 pAddr "name"))
  (hGetConfig { st with heap := heap1 } plugiConfigKey).bind fun pluginConfig =>
  let cfgVal := objField heap1 pAddr "config"
  let assignRes : Heap × HVal × Nat :=
    if pluginConfig = HVal.undefined then (heap1, cfgVal, st.next)
    else
      match cfgVal with
      | HVal.ref cAddr =>
        (setEntry heap1 cAddr
          (assignFieldsH ((lookupEntry heap1 cAddr).getD [])
            (sourceFieldsH heap1 pluginConfig)),
         HVal.ref cAddr, st.next)
      | _ =>
        (heap1 ++ [(st.next, assignFieldsH [] (sourceFieldsH heap1 pluginConfig))],
         HVal.ref st.next, st.next + 1)
  let heap2b :=
    if pluginConfig = HVal.undefined then assignRes.1
    else heapSetField assignRes.1 pAddr "config" assignRes.2.1
  let heap3 := heapSetField heap2b st.configAddr plugiConfigKey
    (if pluginConfig = HVal.undefined then cfgVal else assignRes.2.1)
  let hooksVal := objField heap3 pAddr "hooks"
  let hooksRes : Heap × Nat :=
    if truthyH hooksVal then (heapSetField heap3 pAddr "hooks" hooksVal, assignRes.2.2)
    else (heapSetField (heap3 ++ [(assignRes.2.2, [])]) pAddr "hooks"
      (HVal.ref assignRes.2.2), assignRes.2.2 + 1)
  let extVal := objField hooksRes.1 pAddr "extensions"
  let extRes : Heap × Nat :=
    if truthyH extVal then (heapSetField hooksRes.1 pAddr "extensions" extVal, hooksRes.2)
    else (heapSetField (hooksRes.1 ++ [(hooksRes.2, [])]) pAddr "extensions"
      (HVal.ref hooksRes.2), hooksRes.2 + 1)
  Except.ok { heap := extRes.1, configAddr := st.configAddr
              plugins := st.plugins ++ [HVal.ref pAddr], next := extRes.2 }

/-- Heap-level model of `Lager.prototype.registerPlugin(plugin)` from
src/src/lib/lager.js: throws when the descriptor's `name` is falsy,
otherwise injects the `getPath` method into the caller's descriptor
object (an in-place mutation) and pushes the descriptor reference. -/
def registerPluginHL (heap : Heap) (plugins : List HVal) (pAddr : Nat) :
    Except HVal (Heap × List HVal) :=
  if truthyH (objField heap pAddr "name") then
    Except.ok (heapSetField heap pAddr "getPath" HVal.fnGetPath,
      plugins ++ [HVal.ref pAddr])
  else Except.error (HVal.str "A lager plugin MUST have a name property")

/-! ## Theorems -/

theorem lookupEntry_setEntry_self {κ β : Type} [DecidableEq κ]
    (l : List (κ × β)) (k : κ) (v : β) :
    lookupEntry (setEntry l k v) k = some v := by
  induction l with
  | nil => simp [setEntry, lookupEntry]
  | cons hd tl ih =>
    obtain ⟨k1, v1⟩ := hd
    by_cases h : k1 = k
    · simp [setEntry, lookupEntry, h]
    · simp [setEntry, lookupEntry, h, ih]

theorem lookupEntry_setEntry_ne {κ β : Type} [DecidableEq κ]
    (l : List (κ × β)) (k k2 : κ) (v : β) (h : k ≠ k2) :
    lookupEntry (setEntry l k v) k2 = lookupEntry l k2 := by
  induction l with
  | nil => simp [setEntry, lookupEntry, h]
  | cons hd tl ih =>
    obtain ⟨k1, v1⟩ := hd
    by_cases h1 : k1 = k
    · subst h1
      simp [setEntry, lookupEntry, h]
    · simp [setEntry, lookupEntry, h1, ih]

theorem nullFree_lookup {fields : List (String × JsValue)} {k : String} {v : JsValue}
    (hf : nullFreeList fields = true) (h : lookupEntry fields k = some v) :
    nullFree v = true := by
  induction fields with
  | nil => simp [lookupEntry] at h
  | cons hd tl ih =>
    obtain ⟨k1, v1⟩ := hd
    rw [nullFreeList] at hf
    rw [lookupEntry] at h
    rw [Bool.and_eq_true] at hf
    rcases hf with ⟨h1, h2⟩
    by_cases hk : k1 = k
    · simp [hk] at h
      exact h ▸ h1
    · simp [hk] at h
      exact ih h2 h

theorem jsGet_ok_of_nullFree {part : JsValue} (seg : String)
    (hn : nullFree part = true) (hu : isUndefined part = false) :
    ∃ v, jsGet part seg = Except.ok v ∧ nullFree v = true := by
  cases part with
  | undefined => simp [isUndefined] at hu
  | null => simp [nullFree] at hn
  | obj fields =>
    rw [nullFree] at hn
    refine ⟨(lookupEntry fields seg).getD JsValue.undefined, rfl, ?_⟩
    cases h : lookupEntry fields seg with
    | none => simp [Option.getD, nullFree]
    | some v => simpa [Option.getD] using nullFree_lookup hn h
  | bool b => exact ⟨JsValue.undefined, rfl, rfl⟩
  | num n => exact ⟨JsValue.undefined, rfl, rfl⟩
  | str s => exact ⟨JsValue.undefined, rfl, rfl⟩
  | promise v => exact ⟨JsValue.undefined, rfl, rfl⟩

theorem walkConfig_ok_of_nullFree (segs : List String) (part : JsValue)
    (hn : nullFree part = true) :
    ∃ v, walkConfig part segs = Except.ok v ∧ nullFree v = true := by
  induction segs generalizing part with
  | nil => exact ⟨part, rfl, hn⟩
  | cons seg rest ih =>
    rw [walkConfig]
    by_cases hu : isUndefined part = true
    · exact ⟨JsValue.undefined, by simp [hu], rfl⟩
    · have hu2 : isUndefined part = false := by
        cases h : isUndefined part
        · rfl
        · exact absurd h hu
      obtain ⟨v, hv, hvn⟩ := jsGet_ok_of_nullFree seg hn hu2
      obtain ⟨w, hw, hwn⟩ := ih v hvn
      exact ⟨w, by simp [hu2, hv, Except.bind, hw], hwn⟩

theorem getConfig_ok_of_nullFree (config : List (String × JsValue)) (key : Option String)
    (hn : nullFreeList config = true) :
    ∃ v, getConfig config key = Except.ok v := by
  cases key with
  | none => exact ⟨JsValue.obj config, rfl⟩
  | some k =>
    rw [getConfig]
    cases h : splitOnDot k with
    | nil => exact ⟨JsValue.undefined, rfl⟩
    | cons first rest =>
      have hfirst : ∃ v, jsGet (JsValue.obj config) first = Except.ok v ∧ nullFree v = true :=
        jsGet_ok_of_nullFree first (by rw [nullFree]; exact hn) rfl
      obtain ⟨v, hv, hvn⟩ := hfirst
      obtain ⟨w, hw, _⟩ := walkConfig_ok_of_nullFree rest v hvn
      exact ⟨w, by simp [hv, Except.bind, hw]⟩

theorem lookupEntry_eq_none_of_not_mem {κ β : Type} [DecidableEq κ]
    {l : List (κ × β)} {k : κ} (h : k ∉ l.map Prod.fst) :
    lookupEntry l k = none := by
  induction l with
  | nil => rfl
  | cons hd tl ih =>
    obtain ⟨k1, v1⟩ := hd
    rw [List.map_cons, List.mem_cons] at h
    push_neg at h
    rw [lookupEntry, if_neg (fun he => h.1 he.symm)]
    exact ih h.2

theorem lookupEntry_assignFields_of_none (t s : List (String × JsValue)) (k : String)
    (h : lookupEntry s k = none) :
    lookupEntry (assignFields t s) k = lookupEntry t k := by
  induction s generalizing t with
  | nil => rfl
  | cons hd s1 ih =>
    obtain ⟨k1, v1⟩ := hd
    rw [lookupEntry] at h
    by_cases hk : k1 = k
    · rw [if_pos hk] at h
      exact Option.noConfusion h
    · rw [if_neg hk] at h
      rw [assignFields, ih (setEntry t k1 v1) h, lookupEntry_setEntry_ne t k1 k v1 hk]

theorem lookupEntry_assignFields_of_some (s : List (String × JsValue)) (k : String)
    (v : JsValue) :
    ∀ t : List (String × JsValue), (s.map Prod.fst).Nodup →
      lookupEntry s k = some v → lookupEntry (assignFields t s) k = some v := by
  induction s with
  | nil => intro t _ h; exact Option.noConfusion h
  | cons hd s1 ih =>
    intro t hnd h
    obtain ⟨k1, v1⟩ := hd
    rw [List.map_cons, List.nodup_cons] at hnd
    rw [lookupEntry] at h
    by_cases hk : k1 = k
    · rw [if_pos hk] at h
      subst hk
      rw [assignFields,
        lookupEntry_assignFields_of_none (setEntry t k1 v1) s1 k1
          (lookupEntry_eq_none_of_not_mem hnd.1),
        lookupEntry_setEntry_self]
      exact h
    · rw [if_neg hk] at h
      rw [assignFields]
      exact ih (setEntry t k1 v1) hnd.2 h

theorem getConfig_single_segment (config : List (String × JsValue)) (key : String)
    (hk : splitOnDot key = [key]) :
    getConfig config (some key) =
      Except.ok ((lookupEntry config key).getD JsValue.undefined) := by
  rw [getConfig, hk]
  rfl

/-- C6: `registerPlugin` merges the project-level config subsection found
under the plugin's camel-cased name over the plugin's own config defaults
with override semantics — project values win (`lookupEntry prf k = some v`
forces `v` in the merge), the merge is shallow at the top level (keys not
provided by the project keep the plugin's defaults) — and stores the
merged result in the Config Store under that key, retrievable via
`getConfig`. -/
theorem registerPlugin_config_override (st : LagerState) (p : PluginP)
    (st2 : LagerState) (pcf prf : List (String × JsValue))
    (hk : splitOnDot (camelCase (lodashToString p.name)) =
      [camelCase (lodashToString p.name)])
    (hcfg : p.config = JsValue.obj pcf)
    (hproj : lookupEntry st.config (camelCase (lodashToString p.name)) =
      some (JsValue.obj prf))
    (hnd : (prf.map Prod.fst).Nodup)
    (hreg : registerPluginP st p = Except.ok st2) :
    getConfig st2.config (some (camelCase (lodashToString p.name))) =
      Except.ok (JsValue.obj (assignFields pcf prf))
    ∧ (∀ k v, lookupEntry prf k = some v →
        lookupEntry (assignFields pcf prf) k = some v)
    ∧ (∀ k, lookupEntry prf k = none →
        lookupEntry (assignFields pcf prf) k = lookupEntry pcf k) := by
  have hget : getConfig st.config (some (camelCase (lodashToString p.name))) =
      Except.ok (JsValue.obj prf) := by
    rw [getConfig_single_segment st.config _ hk, hproj]
    rfl
  simp only [registerPluginP, hget, Except.bind] at hreg
  rw [Except.ok.injEq] at hreg
  subst hreg
  refine ⟨?_, fun k v => lookupEntry_assignFields_of_some prf k v pcf hnd,
    fun k => lookupEntry_assignFields_of_none pcf prf k⟩
  show getConfig (setEntry st.config (camelCase (lodashToString p.name)) _)
      (some (camelCase (lodashToString p.name))) = _
  rw [getConfig_single_segment _ _ hk, lookupEntry_setEntry_self, hcfg]
  rfl

/-- Witness for C6: plugin default `{timeout: 30}`, project `{timeout: 60}`
— the merged config `{timeout: 60}` is retrievable via
`getConfig("myPlugin")`. -/
theorem registerPlugin_config_override_witness :
    getConfig registeredState.config (some "myPlugin") =
      Except.ok (JsValue.obj [("timeout", JsValue.num 60)]) :=
  (registerPlugin_config_override projectState timeoutPlugin registeredState
    [("timeout", JsValue.num 30)] [("timeout", JsValue.num 60)]
    rfl rfl rfl (by decide) rfl).1

/-- C7 counterexample: the part_002 `registerPlugin` performs no validity
check on `name` — registering a descriptor whose `name` is absent does not
fail with `InvalidPlugin`: it succeeds and appends the descriptor to the
registry (filing its config under the key `""`). -/
theorem registerPlugin_nameless_appended_counterexample :
    registerPluginP emptyState namelessPlugin =
      Except.ok
        { config := [("", JsValue.undefined)], plugins := [namelessPlugin]
          extensions := [], events := [] } := rfl

/-- C7 (amended): the lager.js `registerPlugin` throws (`InvalidPlugin`)
when the descriptor's `name` is falsy and then does not append, and
appends the descriptor returning the engine otherwise; the part_002
`registerPlugin` has no name check — whenever it returns, the descriptor
(with its merged config) has been appended, a name being present or
not. -/
theorem registerPlugin_name_check_amended :
    (∀ (plugins : List PluginL) (p : PluginL), truthy p.name = false →
      registerPluginL plugins p =
        Except.error (JsValue.str "A lager plugin MUST have a name property"))
    ∧ (∀ (plugins : List PluginL) (p : PluginL), truthy p.name = true →
      registerPluginL plugins p = Except.ok (plugins ++ [p]))
    ∧ (∀ (st : LagerState) (p : PluginP) (st2 : LagerState),
      registerPluginP st p = Except.ok st2 →
      ∃ cfg, st2.plugins = st.plugins ++ [{ p with config := cfg }]) := by
  refine ⟨?_, ?_, ?_⟩
  · intro plugins p h
    rw [registerPluginL, h]
    rfl
  · intro plugins p h
    rw [registerPluginL, h]
    rfl
  · intro st p st2 hreg
    rw [registerPluginP] at hreg
    cases hget : getConfig st.config (some (camelCase (lodashToString p.name))) with
    | error e =>
      rw [hget] at hreg
      exact Except.noConfusion hreg
    | ok pluginConfig =>
      rw [hget] at hreg
      simp only [Except.bind] at hreg
      rw [Except.ok.injEq] at hreg
      subst hreg
      exact ⟨_, rfl⟩

/-- Witness for C7: a falsy-named descriptor is rejected by the lager.js
implementation, a named one is appended; the part_002 implementation
appends even the nameless descriptor. -/
theorem registerPlugin_name_check_amended_witness :
    registerPluginL [] { name := JsValue.undefined, hooks := none } =
      Except.error (JsValue.str "A lager plugin MUST have a name property")
    ∧ registerPluginL [] { name := JsValue.str "iam", hooks := none } =
      Except.ok [{ name := JsValue.str "iam", hooks := none }]
    ∧ ∃ cfg,
        ({ config := [("", JsValue.undefined)], plugins := [namelessPlugin]
           extensions := [], events := [] } : LagerState).plugins =
          emptyState.plugins ++ [{ namelessPlugin with config := cfg }] :=
  ⟨registerPlugin_name_check_amended.1 [] { name := JsValue.undefined, hooks := none } rfl,
   registerPlugin_name_check_amended.2.1 [] { name := JsValue.str "iam", hooks := none } rfl,
   registerPlugin_name_check_amended.2.2 emptyState namelessPlugin _ rfl⟩

/-- C8 counterexample: the lager.js `getPlugin` on a registry containing no
plugin of the requested name returns `undefined` (here `none`) to its
caller — no `PluginNotFound` error is thrown, refuting the failure half of
the claim for this implementation. -/
theorem getPlugin_no_throw_counterexample :
    getPluginL [pluginA] "iam" = none := rfl

theorem find?_first_match {α : Type} (pred : α → Bool) (l1 l2 : List α) (p : α)
    (hp : pred p = true) (h1 : ∀ q ∈ l1, pred q = false) :
    (l1 ++ p :: l2).find? pred = some p := by
  induction l1 with
  | nil => simp [List.find?_cons, hp]
  | cons q l1a ih =>
    rw [List.cons_append, List.find?_cons_of_neg _ (by
      rw [h1 q (List.mem_cons_self q l1a)]
      exact Bool.false_ne_true)]
    exact ih fun r hr => h1 r (List.mem_cons_of_mem q hr)

/-- C8 (amended): both implementations of `getPlugin` perform a linear
search and return the first registered descriptor whose `name` equals the
argument (with duplicate names the earliest-registered wins); when no
descriptor matches, the part_002 implementation fails with a
`PluginNotFound` error, while the lager.js implementation returns
`undefined` without failing. -/
theorem getPlugin_amended (name : String) :
    (∀ (l1 l2 : List PluginP) (p : PluginP), nameMatches p.name name = true →
      (∀ q ∈ l1, nameMatches q.name name = false) →
      getPluginP (l1 ++ p :: l2) name = Except.ok p)
    ∧ (∀ plugins : List PluginP, (∀ q ∈ plugins, nameMatches q.name name = false) →
      getPluginP plugins name = Except.error (JsValue.str
        ("The plugin \"" ++ name ++ "\" is not registered in the Lager instance")))
    ∧ (∀ (l1 l2 : List PluginL) (p : PluginL), nameMatches p.name name = true →
      (∀ q ∈ l1, nameMatches q.name name = false) →
      getPluginL (l1 ++ p :: l2) name = some p)
    ∧ (∀ plugins : List PluginL, (∀ q ∈ plugins, nameMatches q.name name = false) →
      getPluginL plugins name = none) := by
  refine ⟨?_, ?_, ?_, ?_⟩
  · intro l1 l2 p hp h1
    rw [getPluginP, find?_first_match _ l1 l2 p hp h1]
  · intro plugins h
    rw [getPluginP, List.find?_eq_none.mpr fun q hq => by
      rw [h q hq]
      exact Bool.false_ne_true]
  · intro l1 l2 p hp h1
    rw [getPluginL, find?_first_match _ l1 l2 p hp h1]
  · intro plugins h
    rw [getPluginL, List.find?_eq_none.mpr fun q hq => by
      rw [h q hq]
      exact Bool.false_ne_true]

/-- Witness for C8: with two plugins both named `"dup"`, `getPlugin`
returns the earliest-registered one; a miss throws on the part_002 engine
and returns `undefined` on the lager.js one. -/
theorem getPlugin_amended_witness :
    getPluginP [dupPlugin1, dupPlugin2] "dup" = Except.ok dupPlugin1
    ∧ getPluginP [dupPlugin1, dupPlugin2] "iam" = Except.error (JsValue.str
        "The plugin \"iam\" is not registered in the Lager instance")
    ∧ getPluginL [pluginA, pluginB] "B" = some pluginB
    ∧ getPluginL [pluginA, pluginB] "iam" = none := by
  refine ⟨?_, ?_, ?_, ?_⟩
  · exact (getPlugin_amended "dup").1 [] [dupPlugin2] dupPlugin1 rfl
      (fun q hq => absurd hq (List.not_mem_nil q))
  · refine (getPlugin_amended "iam").2.1 [dupPlugin1, dupPlugin2] ?_
    intro q hq
    rcases List.mem_cons.mp hq with rfl | hq2
    · rfl
    · rcases List.mem_cons.mp hq2 with rfl | hq3
      · rfl
      · exact absurd hq3 (List.not_mem_nil q)
  · exact (getPlugin_amended "B").2.2.1 [pluginA] [] pluginB rfl
      (fun q hq => by
        rcases List.mem_cons.mp hq with rfl | hq2
        · rfl
        · exact absurd hq2 (List.not_mem_nil q))
  · refine (getPlugin_amended "iam").2.2.2 [pluginA, pluginB] ?_
    intro q hq
    rcases List.mem_cons.mp hq with rfl | hq2
    · rfl
    · rcases List.mem_cons.mp hq2 with rfl | hq3
      · rfl
      · exact absurd hq3 (List.not_mem_nil q)

/-- C4 counterexample: an extension registered under `"P:double"` that
returns the plain number `10` makes `call` return that plain number —
`call` performs no normalization of a plain return value into a resolved
future, refuting the claim that the result is always a future of the
extension's result. -/
theorem call_no_normalization_counterexample :
    call [("P:double", doubleExtension)] "P:double" [JsValue.num 5] = JsValue.num 10
    ∧ isPromise (call [("P:double", doubleExtension)] "P:double" [JsValue.num 5]) =
        false :=
  ⟨rfl, rfl⟩

/-- C4 (amended): when an extension is registered under exactly `key`,
`call(key, ...args)` returns the extension's result as-is — a future only
if the extension itself returns one, with no normalization of plain return
values; otherwise it returns a resolved future of the last element of
`args`, unchanged. -/
theorem call_amended (extensions : List (String × ExtFn)) (key : String)
    (args : List JsValue) :
    (∀ f, lookupEntry extensions key = some f → call extensions key args = f args)
    ∧ (lookupEntry extensions key = none →
        call extensions key args =
          JsValue.promise ((args.getLast?).getD JsValue.undefined))
    ∧ (∀ (front : List JsValue) (v : JsValue), lookupEntry extensions key = none →
        call extensions key (front ++ [v]) = JsValue.promise v) := by
  refine ⟨?_, ?_, ?_⟩
  · intro f hf
    rw [call, hf]
  · intro h
    rw [call, h]
  · intro front v h
    rw [call, h, List.getLast?_concat]
    rfl

/-- Witness for C4: the registered `"P:double"` extension yields the plain
`10` on argument `5`; an unregistered key yields a resolved future of the
last argument. -/
theorem call_amended_witness :
    call [("P:double", doubleExtension)] "P:double" [JsValue.num 5] = JsValue.num 10
    ∧ call [] "iam:missing" [JsValue.str "a", JsValue.num 3] =
        JsValue.promise (JsValue.num 3) :=
  ⟨(call_amended [("P:double", doubleExtension)] "P:double" [JsValue.num 5]).1
      doubleExtension rfl,
   (call_amended [] "iam:missing" [JsValue.str "a", JsValue.num 3]).2.2
      [JsValue.str "a"] (JsValue.num 3) rfl⟩

/-- C9: calling `call(key)` with a key under which no extension is
registered and no further arguments resolves to `undefined`
(`args[args.length - 1]` on the empty argument list is `undefined`). -/
theorem call_unregistered_no_args (extensions : List (String × ExtFn)) (key : String)
    (h : lookupEntry extensions key = none) :
    call extensions key [] = JsValue.promise JsValue.undefined := by
  rw [call, h]
  rfl

/-- Witness for C9: a concrete registry not containing the key. -/
theorem call_unregistered_no_args_witness :
    call [("P:double", doubleExtension)] "otherPlugin:oops" [] =
      JsValue.promise JsValue.undefined :=
  call_unregistered_no_args [("P:double", doubleExtension)] "otherPlugin:oops" rfl

/-- C5 counterexample: with config `{a: null}`, `getConfig("a.b")` does not
return `undefined` — the loop passes the `part === undefined` guard (since
`null !== undefined`) and the property access `null["b"]` throws a
`TypeError`, refuting «never throws». -/
theorem getConfig_null_counterexample :
    getConfig [("a", JsValue.null)] (some "a.b") =
      Except.error (JsValue.str "TypeError") := rfl

/-- C5 (amended): `getConfig` never throws provided the config mapping
contains no `null` values: with no key it returns the entire config
mapping, and with a dotted key it walks the mapping segment by segment,
returning `undefined` immediately when the current part is `undefined`
(a missing segment); a `null` intermediate value, however, makes the
property access throw a `TypeError`. -/
theorem getConfig_safe_amended (config : List (String × JsValue)) (key : String)
    (h : nullFreeList config = true) :
    (getConfig config none = Except.ok (JsValue.obj config))
    ∧ (∃ v, getConfig config (some key) = Except.ok v)
    ∧ (∀ (seg : String) (rest : List String),
        walkConfig JsValue.undefined (seg :: rest) = Except.ok JsValue.undefined) := by
  refine ⟨rfl, getConfig_ok_of_nullFree config (some key) h, ?_⟩
  intro seg rest
  rw [walkConfig]
  rfl

/-- Witness for C5: the spec's own example config — `getConfig` succeeds on
the deep missing path `"iam.missing.deep"`. -/
theorem getConfig_safe_amended_witness :
    ∃ v, getConfig [("iam", JsValue.obj [("region", JsValue.str "us-east-1")])]
        (some "iam.missing.deep") = Except.ok v :=
  (getConfig_safe_amended [("iam", JsValue.obj [("region", JsValue.str "us-east-1")])]
    "iam.missing.deep" rfl).2.1

theorem callPluginsSequencialy_eq_fold (plugins : List PluginL) (eventName : String) :
    ∀ i args, callPluginsSequencialy plugins eventName i args =
      fireFold eventName (plugins.drop i) args := by
  have main : ∀ n i args, plugins.length - i ≤ n →
      callPluginsSequencialy plugins eventName i args =
        fireFold eventName (plugins.drop i) args := by
    intro n
    induction n with
    | zero =>
      intro i args hle
      have hge : plugins.length ≤ i := by omega
      rw [callPluginsSequencialy, List.getElem?_eq_none hge,
        List.drop_eq_nil_of_le hge]
      rfl
    | succ m ih =>
      intro i args hle
      rw [callPluginsSequencialy]
      split
      · rename_i h
        have hge : plugins.length ≤ i := by
          by_contra hlt
          rw [List.getElem?_eq_getElem (Nat.lt_of_not_le hlt)] at h
          exact Option.noConfusion h
        rw [List.drop_eq_nil_of_le hge]
        rfl
      · rename_i p h
        have hlt : i < plugins.length := by
          by_contra hge
          rw [List.getElem?_eq_none (Nat.le_of_not_lt hge)] at h
          exact Option.noConfusion h
        have hp : plugins[i] = p := by
          rw [List.getElem?_eq_getElem hlt] at h
          exact Option.some.inj h
        have hdrop : plugins.drop i = p :: plugins.drop (i + 1) :=
          (List.drop_eq_getElem_cons hlt).trans (by rw [hp])
        rw [hdrop, fireFold, fireStep]
        cases hh : hookFor p eventName with
        | some handler =>
          simp only [hh]
          cases handler args with
          | ok args2 => exact ih (i + 1) args2 (by omega)
          | error e => rfl
        | none =>
          simp only [hh]
          exact ih (i + 1) args (by omega)
  intro i args
  exact main (plugins.length - i) i args (Nat.le_refl _)

theorem fire_eq_fireFold (plugins : List PluginL) (eventName : String)
    (args : List JsValue) :
    fire plugins eventName args = fireFold eventName plugins args := by
  rw [fire, callPluginsSequencialy_eq_fold]
  rfl

theorem fireFold_append (eventName : String) (l1 l2 : List PluginL)
    (args : List JsValue) :
    fireFold eventName (l1 ++ l2) args =
      (fireFold eventName l1 args).bind fun args2 => fireFold eventName l2 args2 := by
  induction l1 generalizing args with
  | nil => rfl
  | cons p rest ih =>
    rw [List.cons_append, fireFold, fireFold]
    cases fireStep eventName args p with
    | ok args2 =>
      simp only [Except.bind]
      exact ih args2
    | error e => rfl

theorem fireFold_ok_of_unhandled (eventName : String) :
    ∀ (plugins : List PluginL) (args : List JsValue),
      (∀ p ∈ plugins, hookFor p eventName = none) →
      fireFold eventName plugins args = Except.ok args := by
  intro plugins
  induction plugins with
  | nil => intro args _; rfl
  | cons p rest ih =>
    intro args h
    rw [fireFold, fireStep, h p (List.mem_cons_self p rest)]
    exact ih args fun q hq => h q (List.mem_cons_of_mem p hq)

/-- C1: `fire(event, ...args)` executes the plugins' handlers for the event
as a strictly sequential left fold in registration order — each plugin's
handler receives the tuple produced by the previous handling plugin
(`fire = fireFold`, the fold described by the spec) — so registering
plugin A (appends `"-A"` to the first string argument) then plugin B
(appends `"-B"`) and firing with `("x")` resolves to `("x-A-B")`, while
the reverse registration order resolves to `("x-B-A")`. -/
theorem fire_is_sequential_left_fold :
    (∀ (plugins : List PluginL) (eventName : String) (args : List JsValue),
        fire plugins eventName args = fireFold eventName plugins args)
    ∧ fire [pluginA, pluginB] "beforeDeploy" [JsValue.str "x"] =
        Except.ok [JsValue.str "x-A-B"]
    ∧ fire [pluginB, pluginA] "beforeDeploy" [JsValue.str "x"] =
        Except.ok [JsValue.str "x-B-A"] :=
  ⟨fire_eq_fireFold,
   by rw [fire_eq_fireFold]; rfl,
   by rw [fire_eq_fireFold]; rfl⟩

/-- C2: if the handler a plugin contributes for the fired event rejects
with error `e` — after the plugins registered before it transformed the
tuple to `args2` — then `fire` rejects with exactly `e`, whatever plugins
come after it in the registry: the conclusion does not depend on `post`,
so no handler of any later plugin is ever invoked. -/
theorem fire_fail_fast (pre post : List PluginL) (p : PluginL) (eventName : String)
    (args args2 : List JsValue) (e : JsValue) (handler : HookFn)
    (hpre : fire pre eventName args = Except.ok args2)
    (hhook : hookFor p eventName = some handler)
    (herr : handler args2 = Except.error e) :
    fire (pre ++ p :: post) eventName args = Except.error e := by
  rw [fire_eq_fireFold] at hpre
  rw [fire_eq_fireFold, fireFold_append, hpre]
  show fireFold eventName (p :: post) args2 = Except.error e
  rw [fireFold, fireStep, hhook]
  show (handler args2).bind _ = Except.error e
  rw [herr]
  rfl

/-- Witness for C2: of three plugins the second's `beforeDeploy` handler
rejects with `"boom"`; `fire` rejects with that error and plugin C (whose
handler would append `"-C"`) never runs. -/
theorem fire_fail_fast_witness :
    fire [pluginA, pluginFail, pluginC] "beforeDeploy" [JsValue.str "x"] =
      Except.error (JsValue.str "boom") :=
  fire_fail_fast [pluginA] [pluginC] pluginFail "beforeDeploy"
    [JsValue.str "x"] [JsValue.str "x-A"] (JsValue.str "boom") failingHook
    (by rw [fire_eq_fireFold]; rfl) rfl rfl

/-- C3: when no registered plugin has a hook for the fired event — in
particular on an empty registry — `fire(event, ...T)` resolves to the
tuple `T` unchanged, independent of the number of registered plugins. -/
theorem fire_passthrough_unhandled (plugins : List PluginL) (eventName : String)
    (args : List JsValue) (h : ∀ p ∈ plugins, hookFor p eventName = none) :
    fire plugins eventName args = Except.ok args := by
  rw [fire_eq_fireFold]
  exact fireFold_ok_of_unhandled eventName plugins args h

/-- Witness for C3: two plugins implementing only `beforeDeploy`; firing
`unhandledEvent` passes the two-element tuple through unchanged. -/
theorem fire_passthrough_unhandled_witness :
    fire [pluginA, pluginB] "unhandledEvent" [JsValue.str "x", JsValue.num 7] =
      Except.ok [JsValue.str "x", JsValue.num 7] :=
  fire_passthrough_unhandled [pluginA, pluginB] "unhandledEvent"
    [JsValue.str "x", JsValue.num 7]
    (by
      intro p hp
      rcases List.mem_cons.mp hp with rfl | hp2
      · rfl
      · rcases List.mem_cons.mp hp2 with rfl | hp3
        · rfl
        · exact absurd hp3 (List.not_mem_nil p))

theorem heapSetField_self {heap : Heap} {a : Nat} {f : List (String × HVal)}
    (h : lookupEntry heap a = some f) (k : String) (v : HVal) :
    heapSetField heap a k v = setEntry heap a (setEntry f k v) := by
  rw [heapSetField, h]
  rfl

theorem objField_eq {heap : Heap} {a : Nat} {f : List (String × HVal)}
    (h : lookupEntry heap a = some f) (k : String) :
    objField heap a k = (lookupEntry f k).getD HVal.undefined := by
  rw [objField, h]
  rfl

theorem hGetConfig_single {st : HState} {storeF : List (String × HVal)}
    {key : String} (hk : splitOnDot key = [key])
    (hstore : lookupEntry st.heap st.configAddr = some storeF) :
    hGetConfig st key = Except.ok ((lookupEntry storeF key).getD HVal.undefined) := by
  rw [hGetConfig]
  simp only [hk]
  rw [hJsGet, hstore]
  rfl

/-- C10: `registerPlugin` mutates the caller's descriptor object in
place.  For the part_002 engine, with the descriptor at `pAddr`, its
config object at address `c` and the project subsection at address `a`:
after registration the descriptor object has gained the engine-owned
`lager` back-reference; its `config` member still holds the *same*
address `c` (the project override was applied by assigning into the
descriptor's own config object, whose contents at `c` are now the merge);
and the Config Store entry under the camel-cased name holds that same
address `c` — an alias of the descriptor's config object, not a copy.
For the lager.js engine, registration injects the engine-owned `getPath`
member into the caller's descriptor object.  The intermediate heaps
`H1 … H5` and descriptor states `pf1 … pf4` are named by equation
hypotheses for readability. -/
theorem registerPlugin_mutates_descriptor
    (st : HState) (pAddr c a hAddr eAddr : Nat)
    (pf pf1 pf2 pf3 pf4 cf storeF af : List (String × HVal))
    (H1 H2 H2b H3 H4 H5 : Heap) (nm : String)
    (heap0 : Heap) (plugins0 : List HVal) (qAddr : Nat) (qf : List (String × HVal))
    (hp : lookupEntry st.heap pAddr = some pf)
    (hname : lookupEntry pf "name" = some (HVal.str nm))
    (hcfgf : lookupEntry pf "config" = some (HVal.ref c))
    (hhooks : lookupEntry pf "hooks" = some (HVal.ref hAddr))
    (hexts : lookupEntry pf "extensions" = some (HVal.ref eAddr))
    (hcf : lookupEntry st.heap c = some cf)
    (hk : splitOnDot (camelCase nm) = [camelCase nm])
    (hstore : lookupEntry st.heap st.configAddr = some storeF)
    (hproj : lookupEntry storeF (camelCase nm) = some (HVal.ref a))
    (haf : lookupEntry st.heap a = some af)
    (hd1 : pAddr ≠ st.configAddr) (hd2 : pAddr ≠ c) (hd3 : c ≠ st.configAddr)
    (hd4 : a ≠ pAddr)
    (hpf1 : pf1 = setEntry pf "lager" HVal.lagerRef)
    (hH1 : H1 = setEntry st.heap pAddr pf1)
    (hH2 : H2 = setEntry H1 c (assignFieldsH cf af))
    (hpf2 : pf2 = setEntry pf1 "config" (HVal.ref c))
    (hH2b : H2b = setEntry H2 pAddr pf2)
    (hH3 : H3 = setEntry H2b st.configAddr (setEntry storeF (camelCase nm) (HVal.ref c)))
    (hpf3 : pf3 = setEntry pf2 "hooks" (HVal.ref hAddr))
    (hH4 : H4 = setEntry H3 pAddr pf3)
    (hpf4 : pf4 = setEntry pf3 "extensions" (HVal.ref eAddr))
    (hH5 : H5 = setEntry H4 pAddr pf4)
    (hq : lookupEntry heap0 qAddr = some qf)
    (hqname : truthyH ((lookupEntry qf "name").getD HVal.undefined) = true) :
    registerPluginHP st pAddr = Except.ok
      { heap := H5, configAddr := st.configAddr
        plugins := st.plugins ++ [HVal.ref pAddr], next := st.next }
    ∧ objField H5 pAddr "lager" = HVal.lagerRef
    ∧ objField H5 pAddr "config" = HVal.ref c
    ∧ lookupEntry H5 c = some (assignFieldsH cf af)
    ∧ objField H5 st.configAddr (camelCase nm) = HVal.ref c
    ∧ registerPluginHL heap0 plugins0 qAddr = Except.ok
        (setEntry heap0 qAddr (setEntry qf "getPath" HVal.fnGetPath),
         plugins0 ++ [HVal.ref qAddr])
    ∧ objField (setEntry heap0 qAddr (setEntry qf "getPath" HVal.fnGetPath)) qAddr
        "getPath" = HVal.fnGetPath := by
  subst hpf1 hH1 hH2 hpf2 hH2b hH3 hpf3 hH4 hpf4 hH5
  have hd1s := Ne.symm hd1
  have hd2s := Ne.symm hd2
  have hd3s := Ne.symm hd3
  have e1 := heapSetField_self hp "lager" HVal.lagerRef
  have l1p : lookupEntry (setEntry st.heap pAddr (setEntry pf "lager" HVal.lagerRef)) pAddr =
      some (setEntry pf "lager" HVal.lagerRef) := lookupEntry_setEntry_self _ _ _
  have l1c : lookupEntry (setEntry st.heap pAddr (setEntry pf "lager" HVal.lagerRef)) c =
      some cf := by rw [lookupEntry_setEntry_ne _ _ _ _ hd2, hcf]
  have l1s : lookupEntry (setEntry st.heap pAddr (setEntry pf "lager" HVal.lagerRef))
      st.configAddr = some storeF := by rw [lookupEntry_setEntry_ne _ _ _ _ hd1, hstore]
  have l1a : lookupEntry (setEntry st.heap pAddr (setEntry pf "lager" HVal.lagerRef)) a =
      some af := by rw [lookupEntry_setEntry_ne _ _ _ _ (Ne.symm hd4), haf]
  have ename : objField (setEntry st.heap pAddr (setEntry pf "lager" HVal.lagerRef)) pAddr
      "name" = HVal.str nm := by
    rw [objField_eq l1p,
      lookupEntry_setEntry_ne _ _ _ _ (by decide : ("lager" : String) ≠ "name"), hname]
    rfl
  have ecfg : objField (setEntry st.heap pAddr (setEntry pf "lager" HVal.lagerRef)) pAddr
      "config" = HVal.ref c := by
    rw [objField_eq l1p,
      lookupEntry_setEntry_ne _ _ _ _ (by decide : ("lager" : String) ≠ "config"), hcfgf]
    rfl
  have eget : hGetConfig
      { st with heap := setEntry st.heap pAddr (setEntry pf "lager" HVal.lagerRef) }
      (camelCase nm) = Except.ok (HVal.ref a) := by
    rw [hGetConfig_single hk l1s, hproj]
    rfl
  have l2p : lookupEntry (setEntry (setEntry st.heap pAddr (setEntry pf "lager" HVal.lagerRef))
      c (assignFieldsH cf af)) pAddr = some (setEntry pf "lager" HVal.lagerRef) := by
    rw [lookupEntry_setEntry_ne _ _ _ _ hd2s]
    exact l1p
  have e2b := heapSetField_self l2p "config" (HVal.ref c)
  have l2bs : lookupEntry (setEntry (setEntry (setEntry st.heap pAddr
      (setEntry pf "lager" HVal.lagerRef)) c (assignFieldsH cf af)) pAddr
      (setEntry (setEntry pf "lager" HVal.lagerRef) "config" (HVal.ref c))) st.configAddr =
      some storeF := by
    rw [lookupEntry_setEntry_ne _ _ _ _ hd1, lookupEntry_setEntry_ne _ _ _ _ hd3]
    exact l1s
  have e3 := heapSetField_self l2bs (camelCase nm) (HVal.ref c)
  have l3p : lookupEntry (setEntry (setEntry (setEntry (setEntry st.heap pAddr
      (setEntry pf "lager" HVal.lagerRef)) c (assignFieldsH cf af)) pAddr
      (setEntry (setEntry pf "lager" HVal.lagerRef) "config" (HVal.ref c))) st.configAddr
      (setEntry storeF (camelCase nm) (HVal.ref c))) pAddr =
      some (setEntry (setEntry pf "lager" HVal.lagerRef) "config" (HVal.ref c)) := by
    rw [lookupEntry_setEntry_ne _ _ _ _ hd1s]
    exact lookupEntry_setEntry_self _ _ _
  have ehooks : objField (setEntry (setEntry (setEntry (setEntry st.heap pAddr
      (setEntry pf "lager" HVal.lagerRef)) c (assignFieldsH cf af)) pAddr
      (setEntry (setEntry pf "lager" HVal.lagerRef) "config" (HVal.ref c))) st.configAddr
      (setEntry storeF (camelCase nm) (HVal.ref c))) pAddr "hooks" = HVal.ref hAddr := by
    rw [objField_eq l3p,
      lookupEntry_setEntry_ne _ _ _ _ (by decide : ("config" : String) ≠ "hooks"),
      lookupEntry_setEntry_ne _ _ _ _ (by decide : ("lager" : String) ≠ "hooks"), hhooks]
    rfl
  have e4 := heapSetField_self l3p "hooks" (HVal.ref hAddr)
  have l4p : lookupEntry (setEntry (setEntry (setEntry (setEntry (setEntry st.heap pAddr
      (setEntry pf "lager" HVal.lagerRef)) c (assignFieldsH cf af)) pAddr
      (setEntry (setEntry pf "lager" HVal.lagerRef) "config" (HVal.ref c))) st.configAddr
      (setEntry storeF (camelCase nm) (HVal.ref c))) pAddr
      (setEntry (setEntry (setEntry pf "lager" HVal.lagerRef) "config" (HVal.ref c)) "hooks"
        (HVal.ref hAddr))) pAddr =
      some (setEntry (setEntry (setEntry pf "lager" HVal.lagerRef) "config" (HVal.ref c))
        "hooks" (HVal.ref hAddr)) := lookupEntry_setEntry_self _ _ _
  have eexts : objField (setEntry (setEntry (setEntry (setEntry (setEntry st.heap pAddr
      (setEntry pf "lager" HVal.lagerRef)) c (assignFieldsH cf af)) pAddr
      (setEntry (setEntry pf "lager" HVal.lagerRef) "config" (HVal.ref c))) st.configAddr
      (setEntry storeF (camelCase nm) (HVal.ref c))) pAddr
      (setEntry (setEntry (setEntry pf "lager" HVal.lagerRef) "config" (HVal.ref c)) "hooks"
        (HVal.ref hAddr))) pAddr "extensions" = HVal.ref eAddr := by
    rw [objField_eq l4p,
      lookupEntry_setEntry_ne _ _ _ _ (by decide : ("hooks" : String) ≠ "extensions"),
      lookupEntry_setEntry_ne _ _ _ _ (by decide : ("config" : String) ≠ "extensions"),
      lookupEntry_setEntry_ne _ _ _ _ (by decide : ("lager" : String) ≠ "extensions"), hexts]
    rfl
  have e5 := heapSetField_self l4p "extensions" (HVal.ref eAddr)
  have hnu : ¬ (HVal.ref a = HVal.undefined) := fun h => HVal.noConfusion h
  have l5p : lookupEntry (setEntry (setEntry (setEntry (setEntry (setEntry (setEntry st.heap
      pAddr (setEntry pf "lager" HVal.lagerRef)) c (assignFieldsH cf af)) pAddr
      (setEntry (setEntry pf "lager" HVal.lagerRef) "config" (HVal.ref c))) st.configAddr
      (setEntry storeF (camelCase nm) (HVal.ref c))) pAddr
      (setEntry (setEntry (setEntry pf "lager" HVal.lagerRef) "config" (HVal.ref c)) "hooks"
        (HVal.ref hAddr))) pAddr
      (setEntry (setEntry (setEntry (setEntry pf "lager" HVal.lagerRef) "config"
        (HVal.ref c)) "hooks" (HVal.ref hAddr)) "extensions" (HVal.ref eAddr))) pAddr =
      some (setEntry (setEntry (setEntry (setEntry pf "lager" HVal.lagerRef) "config"
        (HVal.ref c)) "hooks" (HVal.ref hAddr)) "extensions" (HVal.ref eAddr)) :=
    lookupEntry_setEntry_self _ _ _
  refine ⟨?_, ?_, ?_, ?_, ?_, ?_, ?_⟩
  · simp only [registerPluginHP, e1, ename, lodashToStringH, eget, Except.bind, ecfg,
      if_neg hnu, sourceFieldsH, l1a, l1c, Option.getD_some, e2b, e3, ehooks, truthyH,
      if_pos, e4, eexts, e5]
  · rw [objField_eq l5p,
      lookupEntry_setEntry_ne _ _ _ _ (by decide : ("extensions" : String) ≠ "lager"),
      lookupEntry_setEntry_ne _ _ _ _ (by decide : ("hooks" : String) ≠ "lager"),
      lookupEntry_setEntry_ne _ _ _ _ (by decide : ("config" : String) ≠ "lager"),
      lookupEntry_setEntry_self]
    rfl
  · rw [objField_eq l5p,
      lookupEntry_setEntry_ne _ _ _ _ (by decide : ("extensions" : String) ≠ "config"),
      lookupEntry_setEntry_ne _ _ _ _ (by decide : ("hooks" : String) ≠ "config"),
      lookupEntry_setEntry_self]
    rfl
  · rw [lookupEntry_setEntry_ne _ _ _ _ hd2, lookupEntry_setEntry_ne _ _ _ _ hd2,
      lookupEntry_setEntry_ne _ _ _ _ hd3s, lookupEntry_setEntry_ne _ _ _ _ hd2,
      lookupEntry_setEntry_self]
  · have lstore : lookupEntry (setEntry (setEntry (setEntry (setEntry (setEntry (setEntry
        st.heap pAddr (setEntry pf "lager" HVal.lagerRef)) c (assignFieldsH cf af)) pAddr
        (setEntry (setEntry pf "lager" HVal.lagerRef) "config" (HVal.ref c))) st.configAddr
        (setEntry storeF (camelCase nm) (HVal.ref c))) pAddr
        (setEntry (setEntry (setEntry pf "lager" HVal.lagerRef) "config" (HVal.ref c))
          "hooks" (HVal.ref hAddr))) pAddr
        (setEntry (setEntry (setEntry (setEntry pf "lager" HVal.lagerRef) "config"
          (HVal.ref c)) "hooks" (HVal.ref hAddr)) "extensions" (HVal.ref eAddr)))
        st.configAddr = some (setEntry storeF (camelCase nm) (HVal.ref c)) := by
      rw [lookupEntry_setEntry_ne _ _ _ _ hd1, lookupEntry_setEntry_ne _ _ _ _ hd1,
        lookupEntry_setEntry_self]
    rw [objField_eq lstore, lookupEntry_setEntry_self]
    rfl
  · rw [registerPluginHL, objField_eq hq, if_pos hqname, heapSetField_self hq]
  · rw [objField_eq (lookupEntry_setEntry_self _ _ _), lookupEntry_setEntry_self]
    rfl

/-- The heap of the C10 witness: the store object at address 0 (project
subsection for `"myPlugin"` at address 5), the caller's descriptor object
at address 1, its config object `{timeout: 30}` at address 2, its hooks
and extensions objects at 3 and 4. -/
def mutHeap : Heap :=
  [(0, [("myPlugin", HVal.ref 5)]),
   (1, [("name", HVal.str "my-plugin"), ("config", HVal.ref 2),
        ("hooks", HVal.ref 3), ("extensions", HVal.ref 4)]),
   (2, [("timeout", HVal.num 30)]),
   (3, []), (4, []),
   (5, [("timeout", HVal.num 60)])]

/-- The C10 witness engine state over `mutHeap`. -/
def mutState : HState :=
  { heap := mutHeap, configAddr := 0, plugins := [], next := 6 }

/-- The heap after registering the descriptor at address 1 on `mutState`:
the descriptor gained the `lager` member, its config object at address 2
was mutated in place to the merged `{timeout: 60}`, and the store entry
`"myPlugin"` aliases address 2. -/
def mutHeapAfter : Heap :=
  [(0, [("myPlugin", HVal.ref 2)]),
   (1, [("name", HVal.str "my-plugin"), ("config", HVal.ref 2),
        ("hooks", HVal.ref 3), ("extensions", HVal.ref 4), ("lager", HVal.lagerRef)]),
   (2, [("timeout", HVal.num 60)]),
   (3, []), (4, []),
   (5, [("timeout", HVal.num 60)])]

/-- Witness for C10 at the concrete heap `mutHeap`: registration mutates
the descriptor in place, the merged config lives at the descriptor's own
address 2, and the store entry aliases it; the lager.js registration
injects `getPath` into the descriptor. -/
theorem registerPlugin_mutates_descriptor_witness :
    registerPluginHP mutState 1 = Except.ok
      { heap := mutHeapAfter, configAddr := 0, plugins := [HVal.ref 1], next := 6 }
    ∧ objField mutHeapAfter 1 "lager" = HVal.lagerRef
    ∧ objField mutHeapAfter 1 "config" = HVal.ref 2
    ∧ lookupEntry mutHeapAfter 2 = some [("timeout", HVal.num 60)]
    ∧ objField mutHeapAfter 0 "myPlugin" = HVal.ref 2
    ∧ objField
        (setEntry mutHeap 1
          (setEntry [("name", HVal.str "my-plugin"), ("config", HVal.ref 2),
            ("hooks", HVal.ref 3), ("extensions", HVal.ref 4)] "getPath" HVal.fnGetPath))
        1 "getPath" = HVal.fnGetPath := by
  have h := registerPlugin_mutates_descriptor mutState 1 2 5 3 4
    [("name", HVal.str "my-plugin"), ("config", HVal.ref 2),
     ("hooks", HVal.ref 3), ("extensions", HVal.ref 4)]
    [("name", HVal.str "my-plugin"), ("config", HVal.ref 2),
     ("hooks", HVal.ref 3), ("extensions", HVal.ref 4), ("lager", HVal.lagerRef)]
    [("name", HVal.str "my-plugin"), ("config", HVal.ref 2),
     ("hooks", HVal.ref 3), ("extensions", HVal.ref 4), ("lager", HVal.lagerRef)]
    [("name", HVal.str "my-plugin"), ("config", HVal.ref 2),
     ("hooks", HVal.ref 3), ("extensions", HVal.ref 4), ("lager", HVal.lagerRef)]
    [("name", HVal.str "my-plugin"), ("config", HVal.ref 2),
     ("hooks", HVal.ref 3), ("extensions", HVal.ref 4), ("lager", HVal.lagerRef)]
    [("timeout", HVal.num 30)] [("myPlugin", HVal.ref 5)] [("timeout", HVal.num 60)]
    [(0, [("myPlugin", HVal.ref 5)]),
     (1, [("name", HVal.str "my-plugin"), ("config", HVal.ref 2),
          ("hooks", HVal.ref 3), ("extensions", HVal.ref 4), ("lager", HVal.lagerRef)]),
     (2, [("timeout", HVal.num 30)]), (3, []), (4, []),
     (5, [("timeout", HVal.num 60)])]
    [(0, [("myPlugin", HVal.ref 5)]),
     (1, [("name", HVal.str "my-plugin"), ("config", HVal.ref 2),
          ("hooks", HVal.ref 3), ("extensions", HVal.ref 4), ("lager", HVal.lagerRef)]),
     (2, [("timeout", HVal.num 60)]), (3, []), (4, []),
     (5, [("timeout", HVal.num 60)])]
    [(0, [("myPlugin", HVal.ref 5)]),
     (1, [("name", HVal.str "my-plugin"), ("config", HVal.ref 2),
          ("hooks", HVal.ref 3), ("extensions", HVal.ref 4), ("lager", HVal.lagerRef)]),
     (2, [("timeout", HVal.num 60)]), (3, []), (4, []),
     (5, [("timeout", HVal.num 60)])]
    mutHeapAfter mutHeapAfter mutHeapAfter
    "my-plugin" mutHeap [] 1
    [("name", HVal.str "my-plugin"), ("config", HVal.ref 2),
     ("hooks", HVal.ref 3), ("extensions", HVal.ref 4)]
    rfl rfl rfl rfl rfl rfl rfl rfl rfl rfl
    (by decide) (by decide) (by decide) (by decide)
    rfl rfl rfl rfl rfl rfl rfl rfl rfl rfl rfl rfl
  exact ⟨h.1, h.2.1, h.2.2.1, h.2.2.2.1, h.2.2.2.2.1, h.2.2.2.2.2.2⟩

end Lager
